import Mathlib

/-!
Verification of the nodejs-utils file-store core.

Shallow embedding of `src/file-store/FileStore.js` and
`src/file-store/FileStoreControl.js`.

Modelling conventions:
* A JS object used as a string-keyed map is a function `String → Option α`
  (own properties only); `fset m k v` is property assignment / deletion.
* The backing file system is a map from paths to file contents
  (`FS := String → Option String`); `createWriteStream p` truncates the
  file at `p`, and stream writes append to it.
* `crypto.createHash('sha256')` is modelled abstractly: the accumulator
  state is the concatenation of all bytes fed to `update`, and the hex
  digest is an (unspecified, injective) function `sha256hex` of that full
  input.  Only the property that the digest depends exactly on the
  concatenation of the updates, in order, is used.
* Fallible async methods (promises that may reject) return `Except Err _`.
* `randomUUID()` is modelled by passing the fresh identifier as an
  argument, with freshness hypotheses where the proofs need them.
-/

/-- Backing file system: path → file content. -/
abbrev FS := String → Option String

/-- Property assignment (`m[k] = v`) / deletion (`v = none`) on a JS
object used as a map. -/
def fset {α : Type} (m : String → Option α) (k : String) (v : Option α) :
    String → Option α :=
  fun j => if j = k then v else m j

/-- Model of `path.join(a, b)` for the simple relative names used by the store. -/
def joinPath (a b : String) : String := a ++ "/" ++ b

/-- Abstract model of the hex digest produced by
`createHash('sha256') … .digest('hex')` applied to the concatenation of
all `update` calls.  The concrete compression function is irrelevant to
the claims; only that the digest is a function of the full input. -/
def sha256hex (s : String) : String := "sha256:" ++ s

/-- Error taxonomy of the store's rejected promises (spec §7): unknown
identifier (including the `TypeError` thrown by `path.join` on an
`undefined` file name), write failure, delete (unlink) failure, and
read-side I/O failure. -/
inductive Err where
  | unknownIdentifier (id : String)
  | writeFailure
  | deleteFailure
  | ioError
deriving DecidableEq, Repr

/-- State of a `FileStore` instance (`FileStore.js`, constructor).
`fileIdsByName` models the JS `_fileIdsByName`, `fileHashObjects` the JS
`_fileHashObjects`; read/write streams are identified by the path they
are open on. -/
structure FileStore where
  rootDirectory : String
  fileIds : List String
  fileNames : String → Option String
  fileIdsByName : String → Option String
  fileHashes : String → Option String
  fileHashObjects : String → Option String
  readStreams : String → Option String
  writeStreams : String → Option String

/-- Constructor `new FileStore(rootDirectory)`: it coalesces a falsy
root (`undefined` or `""`, passed here as `""`) to `'/tmp'`. -/
def mkFileStore (root : String) : FileStore :=
  { rootDirectory := if root = "" then "/tmp" else root
    fileIds := []
    fileNames := fun _ => none
    fileIdsByName := fun _ => none
    fileHashes := fun _ => none
    fileHashObjects := fun _ => none
    readStreams := fun _ => none
    writeStreams := fun _ => none }

namespace FileStore

/-- Model of `FileStore#createNewEmptyFile(fileName)` with the fresh UUID passed
as `newId`.  Reuses the existing id when the name is already mapped,
otherwise registers the new id in `fileIds`, `fileNames` and
`fileIdsByName`; in both cases (re)opens the write stream on
`join(rootDirectory, fileName)`, truncating the backing file, and
resolves to the id.  Ending a previous write stream has no registry
effect beyond the replacement of the `writeStreams` entry. -/
def createNewEmptyFile (st : FileStore) (fs : FS) (newId fileName : String) :
    FileStore × FS × String :=
  let pick : FileStore × String :=
    match st.fileIdsByName fileName with
    | some i => (st, i)
    | none =>
        ({ st with
            fileIds := st.fileIds ++ [newId]
            fileNames := fset st.fileNames newId (some fileName)
            fileIdsByName := fset st.fileIdsByName fileName (some newId) },
         newId)
  let filePath := joinPath pick.1.rootDirectory fileName
  ({ pick.1 with writeStreams := fset pick.1.writeStreams pick.2 (some filePath) },
   fset fs filePath (some ""),
   pick.2)

/-- Model of `FileStore#write(fileId, data)`: it rejects with an unknown-identifier
error when there is no open write stream; otherwise appends `data` to
the backing file of the stream and folds it into the per-id incremental
hash accumulator, creating the accumulator on the first write since the
last `close`. -/
def write (st : FileStore) (fs : FS) (fileId data : String) :
    Except Err (FileStore × FS) :=
  match st.writeStreams fileId with
  | none => .error (.unknownIdentifier fileId)
  | some p =>
      let fs' := fset fs p (some ((fs p).getD "" ++ data))
      let acc := (st.fileHashObjects fileId).getD ""
      .ok ({ st with
              fileHashObjects := fset st.fileHashObjects fileId (some (acc ++ data)) },
           fs')

/-- First block of `FileStore#close(id)`: if an incremental hash
accumulator is in progress, finalize it into `fileHashes` and drop
it. -/
def closeHash (st : FileStore) (id : String) : FileStore :=
  match st.fileHashObjects id with
  | some acc =>
      { st with
          fileHashes := fset st.fileHashes id (some (sha256hex acc))
          fileHashObjects := fset st.fileHashObjects id none }
  | none => st

/-- Second block of `FileStore#close(id)`: drop any open read stream. -/
def closeRead (st : FileStore) (id : String) : FileStore :=
  match st.readStreams id with
  | some _ => { st with readStreams := fset st.readStreams id none }
  | none => st

/-- Third block of `FileStore#close(id)`: drop any open write stream. -/
def closeWrite (st : FileStore) (id : String) : FileStore :=
  match st.writeStreams id with
  | some _ => { st with writeStreams := fset st.writeStreams id none }
  | none => st

/-- Model of `FileStore#close(id)`: the three blocks in source order.  Total — it
never fails. -/
def close (st : FileStore) (id : String) : FileStore :=
  closeWrite (closeRead (closeHash st id) id) id

/-- Model of `FileStore#closeAll()`: close every tracked id. -/
def closeAll (st : FileStore) : FileStore :=
  st.fileIds.foldl close st

/-- Model of `FileStore#getOrCreateReadStream(id)`: return the cached read stream
or lazily open one on `join(rootDirectory, fileNames[id])`.  When `id`
has no recorded name (unknown id), `path.join` throws on the
`undefined` name — modelled as an unknown-identifier error. -/
def getOrCreateReadStream (st : FileStore) (id : String) :
    Except Err (String × FileStore) :=
  match st.readStreams id with
  | some h => .ok (h, st)
  | none =>
      match st.fileNames id with
      | none => .error (.unknownIdentifier id)
      | some n =>
          .ok (joinPath st.rootDirectory n,
               { st with readStreams := fset st.readStreams id
                                          (some (joinPath st.rootDirectory n)) })

/-- Model of `FileStore#getReadStream(id)`: `undefined` (here `none`) when `id`
is not in `fileIds`, otherwise delegates to `getOrCreateReadStream`. -/
def getReadStream (st : FileStore) (id : String) :
    Except Err (Option (String × FileStore)) :=
  if id ∈ st.fileIds then
    (st.getOrCreateReadStream id).map some
  else
    .ok none

/-- Model of `FileStore#readFile(id, outputStream)`: it rejects with an
unknown-identifier error when `id` is not in `fileIds`; otherwise pipes
the full backing content to the output stream (returned here as the
content string) through the cached-or-created read stream. -/
def readFile (st : FileStore) (fs : FS) (id : String) :
    Except Err (String × FileStore) :=
  if id ∈ st.fileIds then
    match st.getOrCreateReadStream id with
    | .error e => .error e
    | .ok (p, st') =>
        match fs p with
        | none => .error .ioError
        | some content => .ok (content, st')
  else
    .error (.unknownIdentifier id)

/-- Model of `FileStore#updateHash(id)`: the full-recompute digest path — rejects on
an unknown id, otherwise re-reads the whole backing file through the
cached-or-created read stream, stores the digest in `fileHashes` and
resolves to it.  Independent of any `fileHashObjects` accumulator. -/
def updateHash (st : FileStore) (fs : FS) (id : String) :
    Except Err (String × FileStore) :=
  if id ∈ st.fileIds then
    match st.getOrCreateReadStream id with
    | .error e => .error e
    | .ok (p, st') =>
        match fs p with
        | none => .error .ioError
        | some content =>
            .ok (sha256hex content,
                 { st' with fileHashes := fset st'.fileHashes id (some (sha256hex content)) })
  else
    .error (.unknownIdentifier id)

/-- Model of `FileStore#writeFile(fileName, inputStream)`: `createNewEmptyFile`,
then for each data event of the input stream (given here as the list of
its chunks) update a local hash accumulator and write the chunk
directly to the write stream; on input end store the finalized digest.
The local accumulator never touches `fileHashObjects`. -/
def writeFile (st : FileStore) (fs : FS) (newId fileName : String)
    (input : List String) : FileStore × FS × String :=
  let r := st.createNewEmptyFile fs newId fileName
  let p := joinPath r.1.rootDirectory fileName
  let r2 := input.foldl
    (fun (acc : String × FS) d =>
      (acc.1 ++ d, fset acc.2 p (some ((acc.2 p).getD "" ++ d))))
    ("", r.2.1)
  ({ r.1 with fileHashes := fset r.1.fileHashes r.2.2 (some (sha256hex r2.1)) },
   r2.2,
   r.2.2)

/-- Model of `FileStore#deleteFile(id)`: with an unknown id, `path.join` throws
on the `undefined` name before anything happens.  Otherwise `unlink` the
backing file — and, whether or not the unlink succeeded (the JS callback
rejects on error but falls through), close the id's streams and prune
`fileIdsByName`, `fileNames`, `fileHashes` and `fileIds`. -/
def deleteFile (st : FileStore) (fs : FS) (id : String) :
    Except Err Unit × FileStore × FS :=
  match st.fileNames id with
  | none => (.error (.unknownIdentifier id), st, fs)
  | some n =>
      let p := joinPath st.rootDirectory n
      let res : Except Err Unit :=
        if (fs p).isSome then .ok () else .error .deleteFailure
      let fs' := fset fs p none
      let st1 := close st id
      let st2 :=
        { st1 with
            fileIdsByName := fset st1.fileIdsByName n none
            fileNames := fset st1.fileNames id none
            fileHashes := fset st1.fileHashes id none
            fileIds := st1.fileIds.erase id }
      (res, st2, fs')

/-- Snapshot produced by `FileStore#toString` / consumed by
`FileStore.fromString` (spec §6: "a structured record of
`{rootDirectory, ids[], names{}, hashes{}}`").  The serialized `size`,
`numberOfReadStreams` and `numberOfWriteStreams` are derived display
data that `fromString` ignores, so they are not part of the model. -/
structure Snapshot where
  rootDirectory : String
  fileIds : List String
  fileNames : String → Option String
  fileHashes : String → Option String
  fileIdsByName : String → Option String

/-- Model of `FileStore#toString()`: serialize the persisted fields. -/
def toString (st : FileStore) : Snapshot :=
  ⟨st.rootDirectory, st.fileIds, st.fileNames, st.fileHashes, st.fileIdsByName⟩

/-- Model of `FileStore.fromString(json)`: build a fresh store from the
snapshot's root directory (through the constructor, hence the falsy
coalescing) and restore `fileIds`, `fileNames`, `fileHashes` and
`_fileIdsByName`; open-handle state and accumulators start empty. -/
def fromString (sn : Snapshot) : FileStore :=
  let it := mkFileStore sn.rootDirectory
  { it with
      fileIds := sn.fileIds
      fileNames := sn.fileNames
      fileHashes := sn.fileHashes
      fileIdsByName := sn.fileIdsByName }

/-- Sequential awaited `write` calls for a list of chunks, stopping at
the first rejection (the client protocol awaits each write). -/
def writeList (st : FileStore) (fs : FS) (id : String) :
    List String → Except Err (FileStore × FS)
  | [] => .ok (st, fs)
  | c :: rest =>
      match st.write fs id c with
      | .error e => .error e
      | .ok r => writeList r.1 r.2 id rest

end FileStore

/-!
Upload session protocol (`FileStoreControl.js`).

The socket.io channel is modelled as: a list of registered per-id data
handlers (`dataHandlers` keys / `upload-${fileId}` listeners) and the
ordered list of events the server emitted back to the client.
-/

/-- The payload of an `upload-${fileId}` event: a falsy argument, an
empty object `{}`, or an object with a `data` field. -/
inductive Payload where
  | pNone
  | pEmpty
  | pData (s : String)
deriving DecidableEq, Repr

/-- Modelled from the spec: `isEmptyObject` (required by
`FileStoreControl.js` but absent from the sources) — "an inbound message
carrying no (or empty) payload is the end-of-stream signal", so an
object with no own properties is empty. -/
def isEmptyObject : Payload → Bool
  | .pEmpty => true
  | _ => false

/-- The JS guard `args[0] && !isEmptyObject(args[0]) && args[0].data`:
returns the chunk data when the payload is a chunk, `none` when it is
the end-of-stream signal (falsy argument, empty object, or falsy `data`
field). -/
def chunkData : Payload → Option String
  | .pNone => none
  | .pEmpty => none
  | .pData s => if isEmptyObject (.pData s) then none
                else if s = "" then none else some s

/-- Events the server emits to the client (spec §6 message names). -/
inductive Emit where
  | beginAck (fileId : String)
  | beginErr (code : Nat)
  | chunkAck (fileId : String)
  | chunkErr (fileId : String) (code : Nat)
deriving DecidableEq, Repr

/-- Server-side protocol state: the store, the backing file system, the
ids with a registered `upload-${fileId}` data handler, and the events
emitted so far. -/
structure ControlState where
  store : FileStore
  fs : FS
  handlers : List String
  emitted : List Emit

/-- The `'upload'` event handler: create (or reuse) the named file,
register the per-id data handler, and reply with the file id. -/
def handleUpload (cs : ControlState) (newId fileName : String) : ControlState :=
  let r := cs.store.createNewEmptyFile cs.fs newId fileName
  { store := r.1
    fs := r.2.1
    handlers := cs.handlers ++ [r.2.2]
    emitted := cs.emitted ++ [.beginAck r.2.2] }

/-- The per-id `upload-${fileId}` data handler (`dataHandlers[fileId]`):
for a chunk, `write` it and acknowledge with an empty payload, or emit
`{code: 2, …}` when the write rejects — leaving the session registered
and the store untouched; for the end-of-stream signal, `close` the file,
deregister the handler, and emit a final empty acknowledgment.  The
handler only runs while registered. -/
def handleChunk (cs : ControlState) (fileId : String) (p : Payload) :
    ControlState :=
  if fileId ∈ cs.handlers then
    match chunkData p with
    | some s =>
        match cs.store.write cs.fs fileId s with
        | .ok r =>
            { cs with store := r.1, fs := r.2,
                      emitted := cs.emitted ++ [.chunkAck fileId] }
        | .error _ =>
            { cs with emitted := cs.emitted ++ [.chunkErr fileId 2] }
    | none =>
        { cs with store := cs.store.close fileId
                  handlers := cs.handlers.erase fileId
                  emitted := cs.emitted ++ [.chunkAck fileId] }
  else cs

/-- The chunk payloads of the end-to-end scenario (spec §8 /
`test_FileStoreControl`): five chunks then the end-of-stream signal. -/
def scenarioChunks : List Payload :=
  [.pData "who\n", .pData "what\n", .pData "when\n", .pData "where\n",
   .pData "why", .pEmpty]

/-- Run the end-to-end scenario: `new FileStore()` (root `'/tmp'`) over
an empty backing file system, `BeginUpload{fileName:"mycoolfile"}` with
the fresh UUID `uuid`, then the five chunks and the end-of-stream, each
sent after the preceding acknowledgment (the handler processes them in
that order). -/
def runScenario (uuid : String) : ControlState :=
  let cs0 : ControlState :=
    { store := mkFileStore "", fs := fun _ => none, handlers := [], emitted := [] }
  let cs1 := handleUpload cs0 uuid "mycoolfile"
  scenarioChunks.foldl (fun cs p => handleChunk cs uuid p) cs1

/-- Number of empty-payload acknowledgments (`ChunkAck{}`) in an emitted
event list. -/
def countChunkAcks (l : List Emit) : Nat :=
  (l.filter fun e => match e with | .chunkAck _ => true | _ => false).length

/-- The registry coherence invariant (spec §3): the id set has no
duplicates (it models a JS `Set`), every tracked id has a recorded name,
every recorded name belongs to a tracked id, and the two name maps are
mutual inverses over live records: `byName[name] == id` iff
`byId[id].name == name`. -/
def FileStore.Inv (st : FileStore) : Prop :=
  st.fileIds.Nodup ∧
  (∀ i, i ∈ st.fileIds → ∃ n, st.fileNames i = some n) ∧
  (∀ i n, st.fileNames i = some n → i ∈ st.fileIds) ∧
  (∀ i n, st.fileNames i = some n ↔ st.fileIdsByName n = some i)

/-!
Concrete fixtures used by the witness theorems.
-/

/-- A registry holding one closed file: id `"i1"`, name `"a"`, no open
streams, no accumulator. -/
def stReg : FileStore :=
  { rootDirectory := "/tmp"
    fileIds := ["i1"]
    fileNames := fset (fun _ => none) "i1" (some "a")
    fileIdsByName := fset (fun _ => none) "a" (some "i1")
    fileHashes := fun _ => none
    fileHashObjects := fun _ => none
    readStreams := fun _ => none
    writeStreams := fun _ => none }

/-- The store `stReg` with an open write stream for `"i1"` (as after
`createNewEmptyFile`). -/
def stOpen : FileStore :=
  { stReg with writeStreams := fset (fun _ => none) "i1" (some "/tmp/a") }

/-- A backing file system holding the single file `/tmp/a`. -/
def fsReg : FS := fset (fun _ => none) "/tmp/a" (some "hello")

/-- A protocol state with a registered session for `"i1"` whose write
stream is gone (`stReg`), so the next chunk's write rejects. -/
def csDangling : ControlState :=
  { store := stReg, fs := fsReg, handlers := ["i1"], emitted := [] }

/-!
Theorems.
-/

theorem fset_self {α : Type} (m : String → Option α) (k : String) (v : Option α) :
    fset m k v k = v := by
  simp [fset]

theorem fset_other {α : Type} (m : String → Option α) (k : String) (v : Option α)
    (j : String) (h : j ≠ k) : fset m k v j = m j := by
  simp [fset, h]

namespace FileStore

theorem closeHash_frame (st : FileStore) (id : String) :
    (closeHash st id).rootDirectory = st.rootDirectory ∧
    (closeHash st id).fileIds = st.fileIds ∧
    (closeHash st id).fileNames = st.fileNames ∧
    (closeHash st id).fileIdsByName = st.fileIdsByName ∧
    (closeHash st id).readStreams = st.readStreams ∧
    (closeHash st id).writeStreams = st.writeStreams := by
  unfold closeHash
  split <;> exact ⟨rfl, rfl, rfl, rfl, rfl, rfl⟩

theorem closeRead_frame (st : FileStore) (id : String) :
    (closeRead st id).rootDirectory = st.rootDirectory ∧
    (closeRead st id).fileIds = st.fileIds ∧
    (closeRead st id).fileNames = st.fileNames ∧
    (closeRead st id).fileIdsByName = st.fileIdsByName ∧
    (closeRead st id).fileHashes = st.fileHashes ∧
    (closeRead st id).fileHashObjects = st.fileHashObjects ∧
    (closeRead st id).writeStreams = st.writeStreams := by
  unfold closeRead
  split <;> exact ⟨rfl, rfl, rfl, rfl, rfl, rfl, rfl⟩

theorem closeWrite_frame (st : FileStore) (id : String) :
    (closeWrite st id).rootDirectory = st.rootDirectory ∧
    (closeWrite st id).fileIds = st.fileIds ∧
    (closeWrite st id).fileNames = st.fileNames ∧
    (closeWrite st id).fileIdsByName = st.fileIdsByName ∧
    (closeWrite st id).fileHashes = st.fileHashes ∧
    (closeWrite st id).fileHashObjects = st.fileHashObjects ∧
    (closeWrite st id).readStreams = st.readStreams := by
  unfold closeWrite
  split <;> exact ⟨rfl, rfl, rfl, rfl, rfl, rfl, rfl⟩

theorem close_rootDirectory (st : FileStore) (id : String) :
    (close st id).rootDirectory = st.rootDirectory := by
  unfold close
  rw [(closeWrite_frame _ _).1, (closeRead_frame _ _).1, (closeHash_frame _ _).1]

theorem close_fileIds (st : FileStore) (id : String) :
    (close st id).fileIds = st.fileIds := by
  unfold close
  rw [(closeWrite_frame _ _).2.1, (closeRead_frame _ _).2.1, (closeHash_frame _ _).2.1]

theorem close_fileNames (st : FileStore) (id : String) :
    (close st id).fileNames = st.fileNames := by
  unfold close
  rw [(closeWrite_frame _ _).2.2.1, (closeRead_frame _ _).2.2.1,
      (closeHash_frame _ _).2.2.1]

theorem close_fileIdsByName (st : FileStore) (id : String) :
    (close st id).fileIdsByName = st.fileIdsByName := by
  unfold close
  rw [(closeWrite_frame _ _).2.2.2.1, (closeRead_frame _ _).2.2.2.1,
      (closeHash_frame _ _).2.2.2.1]

theorem closeHash_hashObjects (st : FileStore) (id : String) (j : String) :
    (closeHash st id).fileHashObjects j = if j = id then none else st.fileHashObjects j := by
  unfold closeHash
  split
  · simp [fset]
  · next h =>
    by_cases hj : j = id
    · subst hj; simp [h]
    · simp [hj]

theorem closeHash_fileHashes (st : FileStore) (id : String) (j : String) :
    (closeHash st id).fileHashes j =
      if j = id then
        (match st.fileHashObjects id with
          | some acc => some (sha256hex acc)
          | none => st.fileHashes id)
      else st.fileHashes j := by
  unfold closeHash
  split
  · next h => by_cases hj : j = id <;> simp [fset, hj, h]
  · next h => by_cases hj : j = id <;> simp [hj, h]

theorem closeRead_readStreams (st : FileStore) (id : String) (j : String) :
    (closeRead st id).readStreams j = if j = id then none else st.readStreams j := by
  unfold closeRead
  split
  · simp [fset]
  · next h =>
    by_cases hj : j = id
    · subst hj; simp [h]
    · simp [hj]

theorem closeWrite_writeStreams (st : FileStore) (id : String) (j : String) :
    (closeWrite st id).writeStreams j = if j = id then none else st.writeStreams j := by
  unfold closeWrite
  split
  · simp [fset]
  · next h =>
    by_cases hj : j = id
    · subst hj; simp [h]
    · simp [hj]

theorem close_fileHashObjects (st : FileStore) (id : String) (j : String) :
    (close st id).fileHashObjects j = if j = id then none else st.fileHashObjects j := by
  unfold close
  rw [(closeWrite_frame _ _).2.2.2.2.2.1, (closeRead_frame _ _).2.2.2.2.2.1,
      closeHash_hashObjects]

theorem close_readStreams (st : FileStore) (id : String) (j : String) :
    (close st id).readStreams j = if j = id then none else st.readStreams j := by
  unfold close
  rw [(closeWrite_frame _ _).2.2.2.2.2.2, closeRead_readStreams,
      (closeHash_frame _ _).2.2.2.2.1]

theorem close_writeStreams (st : FileStore) (id : String) (j : String) :
    (close st id).writeStreams j = if j = id then none else st.writeStreams j := by
  unfold close
  rw [closeWrite_writeStreams, (closeRead_frame _ _).2.2.2.2.2.2,
      (closeHash_frame _ _).2.2.2.2.2]

theorem close_fileHashes (st : FileStore) (id : String) (j : String) :
    (close st id).fileHashes j =
      if j = id then
        (match st.fileHashObjects id with
          | some acc => some (sha256hex acc)
          | none => st.fileHashes id)
      else st.fileHashes j := by
  unfold close
  rw [(closeWrite_frame _ _).2.2.2.2.1, (closeRead_frame _ _).2.2.2.2.1,
      closeHash_fileHashes]

/-- Closing an id with no accumulator and no open streams is the
identity — literally the same state. -/
theorem close_noop (st : FileStore) (id : String)
    (h1 : st.fileHashObjects id = none) (h2 : st.readStreams id = none)
    (h3 : st.writeStreams id = none) : close st id = st := by
  unfold close closeHash closeRead closeWrite
  rw [h1, h2, h3]

end FileStore

namespace FileStore

theorem write_unknown (st : FileStore) (fs : FS) (fileId data : String)
    (hw : st.writeStreams fileId = none) :
    write st fs fileId data = .error (.unknownIdentifier fileId) := by
  unfold write
  rw [hw]

theorem write_step (st : FileStore) (fs : FS) (fileId data p a : String)
    (hw : st.writeStreams fileId = some p)
    (ha : st.fileHashObjects fileId = some a) :
    write st fs fileId data =
      .ok ({ st with fileHashObjects := fset st.fileHashObjects fileId (some (a ++ data)) },
           fset fs p (some ((fs p).getD "" ++ data))) := by
  unfold write
  rw [hw, ha]
  rfl

theorem write_first (st : FileStore) (fs : FS) (fileId data p : String)
    (hw : st.writeStreams fileId = some p)
    (ha : st.fileHashObjects fileId = none) :
    write st fs fileId data =
      .ok ({ st with fileHashObjects := fset st.fileHashObjects fileId (some ("" ++ data)) },
           fset fs p (some ((fs p).getD "" ++ data))) := by
  unfold write
  rw [hw, ha]
  rfl

theorem createNewEmptyFile_fresh (st : FileStore) (fs : FS) (newId fileName : String)
    (h : st.fileIdsByName fileName = none) :
    createNewEmptyFile st fs newId fileName =
      ({ st with
          fileIds := st.fileIds ++ [newId]
          fileNames := fset st.fileNames newId (some fileName)
          fileIdsByName := fset st.fileIdsByName fileName (some newId)
          writeStreams := fset st.writeStreams newId
            (some (joinPath st.rootDirectory fileName)) },
       fset fs (joinPath st.rootDirectory fileName) (some ""),
       newId) := by
  unfold createNewEmptyFile
  rw [h]

theorem createNewEmptyFile_reuse (st : FileStore) (fs : FS) (newId fileName i : String)
    (h : st.fileIdsByName fileName = some i) :
    createNewEmptyFile st fs newId fileName =
      ({ st with
          writeStreams := fset st.writeStreams i
            (some (joinPath st.rootDirectory fileName)) },
       fset fs (joinPath st.rootDirectory fileName) (some ""),
       i) := by
  unfold createNewEmptyFile
  rw [h]

/-- Sequentially writing `chunks` through an open write stream succeeds
and extends the incremental accumulator by their concatenation, in
order. -/
theorem writeList_ok (id p : String) (chunks : List String) :
    ∀ (st : FileStore) (fs : FS) (a : String),
      st.writeStreams id = some p → st.fileHashObjects id = some a →
      ∃ st' fs', writeList st fs id chunks = .ok (st', fs') ∧
        st'.writeStreams id = some p ∧
        st'.fileHashObjects id = some (chunks.foldl (· ++ ·) a) := by
  induction chunks with
  | nil =>
      intro st fs a hw ha
      exact ⟨st, fs, rfl, hw, by rw [ha, List.foldl_nil]⟩
  | cons c rest ih =>
      intro st fs a hw ha
      obtain ⟨st', fs', hrun, hw', ha'⟩ :=
        ih { st with fileHashObjects := fset st.fileHashObjects id (some (a ++ c)) }
          (fset fs p (some ((fs p).getD "" ++ c))) (a ++ c) hw
          (fset_self _ _ _)
      refine ⟨st', fs', ?_, hw', ha'⟩
      unfold writeList
      rw [write_step st fs id c p a hw ha]
      exact hrun

end FileStore

namespace FileStore

theorem write_ok (st : FileStore) (fs : FS) (fileId data p : String)
    (hw : st.writeStreams fileId = some p) :
    write st fs fileId data =
      .ok ({ st with
              fileHashObjects := fset st.fileHashObjects fileId
                (some ((st.fileHashObjects fileId).getD "" ++ data)) },
           fset fs p (some ((fs p).getD "" ++ data))) := by
  unfold write
  rw [hw]

/-- C1.  For every file id with an open write handle and no in-progress
accumulator, performing `write(id,c1)` through `write(id,cn)` (all
succeeding) followed by `close(id)` sets the stored hash for `id` to the
digest of the concatenation `c1..cn`, identical to hashing the full
concatenation in order. -/
theorem hash_equivalence (st : FileStore) (fs : FS) (id p : String)
    (chunks : List String) (hw : st.writeStreams id = some p)
    (ha : st.fileHashObjects id = none) (hne : chunks ≠ []) :
    (writeList st fs id chunks).map (fun q => (close q.1 id).fileHashes id)
      = .ok (some (sha256hex (String.join chunks))) := by
  cases chunks with
  | nil => exact absurd rfl hne
  | cons c rest =>
    obtain ⟨st', fs', hrun, hw', ha'⟩ :=
      writeList_ok id p rest
        { st with fileHashObjects := fset st.fileHashObjects id (some ("" ++ c)) }
        (fset fs p (some ((fs p).getD "" ++ c))) ("" ++ c) hw (fset_self _ _ _)
    have hall : writeList st fs id (c :: rest) = .ok (st', fs') := by
      unfold writeList
      rw [write_first st fs id c p hw ha]
      exact hrun
    rw [hall]
    simp only [Except.map]
    rw [close_fileHashes, if_pos rfl, ha']
    rfl

/-- Witness for C1: two chunks through the open handle of `stOpen`. -/
theorem hash_equivalence_witness :
    (writeList stOpen fsReg "i1" ["ab", "cd"]).map
        (fun q => (close q.1 "i1").fileHashes "i1")
      = .ok (some (sha256hex (String.join ["ab", "cd"]))) :=
  hash_equivalence stOpen fsReg "i1" "/tmp/a" ["ab", "cd"] rfl rfl
    (List.cons_ne_nil _ _)

/-- C2.  `createOrReuse` twice with the same (initially unmapped) name
returns the same id both times; content written between the calls is
present before the second call and overwritten (truncated to empty) by
it. -/
theorem reuse_truncates (st : FileStore) (fs : FS) (name id1 id2 c : String)
    (hfresh : st.fileIdsByName name = none) :
    (createNewEmptyFile st fs id1 name).2.2 = id1 ∧
    ((createNewEmptyFile st fs id1 name).1.write
        (createNewEmptyFile st fs id1 name).2.1 id1 c).map
      (fun q =>
        ((createNewEmptyFile q.1 q.2 id2 name).2.2,
         q.2 (joinPath st.rootDirectory name),
         (createNewEmptyFile q.1 q.2 id2 name).2.1 (joinPath st.rootDirectory name)))
      = .ok (id1, some c, some "") := by
  rw [createNewEmptyFile_fresh st fs id1 name hfresh]
  refine ⟨rfl, ?_⟩
  rw [write_ok _ _ id1 c (joinPath st.rootDirectory name) (fset_self _ _ _)]
  simp only [Except.map]
  rw [createNewEmptyFile_reuse _ _ id2 name id1 (fset_self _ _ _)]
  rw [fset_self, fset_self]
  simp [String.empty_append, fset_self]

/-- Witness for C2: the name `"b"` is unmapped in `stReg`. -/
theorem reuse_truncates_witness :
    (createNewEmptyFile stReg fsReg "j1" "b").2.2 = "j1" :=
  (reuse_truncates stReg fsReg "b" "j1" "j2" "hi" rfl).1

end FileStore

namespace FileStore

/-- C5.  `close(id)` twice in a row produces no error (it is total) and
the second call changes nothing — in particular the stored hash is the
same after the second call as after the first — and closing an
already-closed or never-opened id is a no-op. -/
theorem close_idempotent (st : FileStore) (id : String) :
    close (close st id) id = close st id ∧
    (∀ j, (close (close st id) id).fileHashes j = (close st id).fileHashes j) ∧
    (st.fileHashObjects id = none → st.readStreams id = none →
      st.writeStreams id = none → close st id = st) := by
  have h := close_noop (close st id) id
    (by rw [close_fileHashObjects]; simp)
    (by rw [close_readStreams]; simp)
    (by rw [close_writeStreams]; simp)
  exact ⟨h, fun j => by rw [h], close_noop st id⟩

/-- Witness for C5: closing a never-opened id on a fresh store is the
identity. -/
theorem close_idempotent_witness :
    close (mkFileStore "/tmp") "x" = mkFileStore "/tmp" :=
  (close_idempotent (mkFileStore "/tmp") "x").2.2 rfl rfl rfl

theorem createNewEmptyFile_fileHashObjects (st : FileStore) (fs : FS)
    (newId fileName : String) :
    (createNewEmptyFile st fs newId fileName).1.fileHashObjects
      = st.fileHashObjects := by
  unfold createNewEmptyFile
  cases h : st.fileIdsByName fileName <;> simp [h]

/-- C10.  For every id with no in-progress accumulator, `close(id)`
leaves every stored hash unchanged, and `close` touches only the
accumulator, read-stream and write-stream entries of that single id —
the id set, the name maps, and every other id's entries are untouched.
`writeFile`'s digest is computed by a local accumulator and never
creates a `fileHashObjects` entry, so its files satisfy the premise. -/
theorem close_frame_effect (st : FileStore) (id : String)
    (ha : st.fileHashObjects id = none) :
    (∀ j, (close st id).fileHashes j = st.fileHashes j) ∧
    (close st id).fileIds = st.fileIds ∧
    (close st id).rootDirectory = st.rootDirectory ∧
    (close st id).fileNames = st.fileNames ∧
    (close st id).fileIdsByName = st.fileIdsByName ∧
    (∀ j, j ≠ id → (close st id).readStreams j = st.readStreams j ∧
      (close st id).writeStreams j = st.writeStreams j ∧
      (close st id).fileHashObjects j = st.fileHashObjects j) ∧
    (∀ fs newId fileName input j,
      (writeFile st fs newId fileName input).1.fileHashObjects j
        = st.fileHashObjects j) := by
  refine ⟨?_, close_fileIds st id, close_rootDirectory st id, close_fileNames st id,
    close_fileIdsByName st id, ?_, ?_⟩
  · intro j
    rw [close_fileHashes]
    by_cases hj : j = id
    · subst hj; rw [if_pos rfl, ha]
    · rw [if_neg hj]
  · intro j hj
    rw [close_readStreams, close_writeStreams, close_fileHashObjects]
    exact ⟨if_neg hj, if_neg hj, if_neg hj⟩
  · intro fs newId fileName input j
    show ((writeFile st fs newId fileName input).1.fileHashObjects) j = _
    unfold writeFile
    simp only
    rw [createNewEmptyFile_fileHashObjects]

/-- Witness for C10: `stOpen` has no accumulator for `"i1"`. -/
theorem close_frame_effect_witness :
    (close stOpen "i1").fileHashes "i1" = stOpen.fileHashes "i1" :=
  (close_frame_effect stOpen "i1" rfl).1 "i1"

theorem deleteFile_known (st : FileStore) (fs : FS) (id n : String)
    (hn : st.fileNames id = some n) :
    deleteFile st fs id =
      ((if (fs (joinPath st.rootDirectory n)).isSome then .ok ()
          else .error .deleteFailure),
       { close st id with
           fileIdsByName := fset (close st id).fileIdsByName n none
           fileNames := fset (close st id).fileNames id none
           fileHashes := fset (close st id).fileHashes id none
           fileIds := (close st id).fileIds.erase id },
       fset fs (joinPath st.rootDirectory n) none) := by
  unfold deleteFile
  rw [hn]

/-- C4 (amended).  After `delete(id)` succeeds, the backing file no
longer exists and any subsequent `write` or `readFile` on `id` fails
with an unknown-identifier error; `close` on `id` is a no-op (it never
fails), not an error. -/
theorem deletion_finality (st : FileStore) (fs fs2 : FS) (id n content c : String)
    (hn : st.fileNames id = some n) (hnd : st.fileIds.Nodup)
    (hfile : fs (joinPath st.rootDirectory n) = some content) :
    (deleteFile st fs id).1 = .ok () ∧
    (deleteFile st fs id).2.2 (joinPath st.rootDirectory n) = none ∧
    ((deleteFile st fs id).2.1.write fs2 id c) = .error (.unknownIdentifier id) ∧
    ((deleteFile st fs id).2.1.readFile fs2 id) = .error (.unknownIdentifier id) ∧
    close (deleteFile st fs id).2.1 id = (deleteFile st fs id).2.1 := by
  rw [deleteFile_known st fs id n hn]
  have hws : (close st id).writeStreams id = none := by
    rw [close_writeStreams]; simp
  have hrs : (close st id).readStreams id = none := by
    rw [close_readStreams]; simp
  have hho : (close st id).fileHashObjects id = none := by
    rw [close_fileHashObjects]; simp
  have hmem : id ∉ (close st id).fileIds.erase id := by
    rw [close_fileIds]
    exact hnd.not_mem_erase
  refine ⟨?_, fset_self _ _ _, ?_, ?_, ?_⟩
  · rw [hfile]; rfl
  · exact write_unknown _ fs2 id c hws
  · unfold readFile
    rw [if_neg hmem]
  · exact close_noop _ id hho hrs hws

/-- Witness for C4: the registered file of `stReg` backed by `fsReg`. -/
theorem deletion_finality_witness :
    ((deleteFile stReg fsReg "i1").2.1.readFile (fun _ => none) "i1")
      = .error (.unknownIdentifier "i1") :=
  (deletion_finality stReg fsReg (fun _ => none) "i1" "a" "hello" "x" rfl
    (by decide) rfl).2.2.2.1

/-- Counterexample for C4 as stated: after a successful `delete`,
`close` on the deleted id does not fail with an unknown-identifier
error — it is total and leaves the state unchanged. -/
theorem deletion_close_cex :
    (deleteFile stReg fsReg "i1").1 = .ok () ∧
    close (deleteFile stReg fsReg "i1").2.1 "i1"
      = (deleteFile stReg fsReg "i1").2.1 :=
  ⟨rfl, rfl⟩

end FileStore

/-- Counterexample for C3 as stated: in the end-to-end scenario the
number of empty-payload `ChunkAck{}` events the server emits is six —
one per chunk (five) plus the terminal acknowledgment — not five. -/
theorem scenario_ack_count_cex :
    countChunkAcks ((runScenario "f3a1").emitted) = 6 ∧
    ¬ countChunkAcks ((runScenario "f3a1").emitted) = 5 := by
  constructor <;> decide

/-- C3 (amended).  In the end-to-end upload scenario the final file
content equals `"who\nwhat\nwhen\nwhere\nwhy"` and exactly six
`ChunkAck{}` messages — one per chunk plus one terminal — are observed
in order after the `BeginUploadAck`; the session handler is deregistered
and the stored hash is the digest of the full content. -/
theorem scenario_end_to_end :
    (runScenario "f3a1").fs "/tmp/mycoolfile"
      = some "who\nwhat\nwhen\nwhere\nwhy" ∧
    (runScenario "f3a1").emitted
      = [.beginAck "f3a1", .chunkAck "f3a1", .chunkAck "f3a1", .chunkAck "f3a1",
         .chunkAck "f3a1", .chunkAck "f3a1", .chunkAck "f3a1"] ∧
    (runScenario "f3a1").handlers = [] ∧
    (runScenario "f3a1").store.fileHashes "f3a1"
      = some (sha256hex "who\nwhat\nwhen\nwhere\nwhy") := by
  refine ⟨?_, ?_, ?_, ?_⟩ <;> decide

namespace FileStore

/-- C6.  For every (reachable: non-falsy root) registry state,
deserializing the output of `serialize` yields a registry equal to the
original on the persisted fields — root directory, id set, id→name map,
name→id map, hash map — while open-handle state and in-progress
accumulators come back empty. -/
theorem snapshot_round_trip (st : FileStore) (h : st.rootDirectory ≠ "") :
    (fromString (toString st)).rootDirectory = st.rootDirectory ∧
    (fromString (toString st)).fileIds = st.fileIds ∧
    (fromString (toString st)).fileNames = st.fileNames ∧
    (fromString (toString st)).fileIdsByName = st.fileIdsByName ∧
    (fromString (toString st)).fileHashes = st.fileHashes ∧
    (∀ j, (fromString (toString st)).readStreams j = none) ∧
    (∀ j, (fromString (toString st)).writeStreams j = none) ∧
    (∀ j, (fromString (toString st)).fileHashObjects j = none) := by
  refine ⟨?_, rfl, rfl, rfl, rfl, fun j => rfl, fun j => rfl, fun j => rfl⟩
  show (if st.rootDirectory = "" then "/tmp" else st.rootDirectory)
    = st.rootDirectory
  rw [if_neg h]

/-- Witness for C6 on the concrete store `stReg`. -/
theorem snapshot_round_trip_witness :
    (fromString (toString stReg)).fileIdsByName = stReg.fileIdsByName :=
  (snapshot_round_trip stReg (by decide)).2.2.2.1

/-- C9.  A lookup-style read access (`getReadStream`) on an id outside
the id set returns an explicit absent result without erroring; the
assume-exists accessor (`getOrCreateReadStream`) on an unknown id fails
with an unknown-identifier error; on a known id both return the cached
read handle or lazily open one on the file's recorded name. -/
theorem read_accessor_patterns (st : FileStore) (id : String) :
    (id ∉ st.fileIds → getReadStream st id = .ok none) ∧
    (st.readStreams id = none → st.fileNames id = none →
      getOrCreateReadStream st id = .error (.unknownIdentifier id)) ∧
    (∀ h, st.readStreams id = some h →
      getOrCreateReadStream st id = .ok (h, st) ∧
      (id ∈ st.fileIds → getReadStream st id = .ok (some (h, st)))) ∧
    (∀ n, st.readStreams id = none → st.fileNames id = some n →
      getOrCreateReadStream st id =
        .ok (joinPath st.rootDirectory n,
             { st with readStreams := fset st.readStreams id (some (joinPath st.rootDirectory n)) }) ∧
      (id ∈ st.fileIds → getReadStream st id =
        .ok (some (joinPath st.rootDirectory n,
             { st with readStreams := fset st.readStreams id (some (joinPath st.rootDirectory n)) })))) := by
  refine ⟨?_, ?_, ?_, ?_⟩
  · intro hmem
    unfold getReadStream
    rw [if_neg hmem]
  · intro hrs hn
    unfold getOrCreateReadStream
    rw [hrs, hn]
  · intro h hrs
    have hg : getOrCreateReadStream st id = .ok (h, st) := by
      unfold getOrCreateReadStream
      rw [hrs]
    refine ⟨hg, fun hmem => ?_⟩
    unfold getReadStream
    rw [if_pos hmem, hg]
    rfl
  · intro n hrs hn
    have hg : getOrCreateReadStream st id =
        .ok (joinPath st.rootDirectory n,
             { st with readStreams := fset st.readStreams id (some (joinPath st.rootDirectory n)) }) := by
      unfold getOrCreateReadStream
      rw [hrs, hn]
    refine ⟨hg, fun hmem => ?_⟩
    unfold getReadStream
    rw [if_pos hmem, hg]
    rfl

/-- Witness for C9: the unknown id `"nope"` on a fresh store. -/
theorem read_accessor_patterns_witness :
    getReadStream (mkFileStore "/tmp") "nope" = .ok none :=
  (read_accessor_patterns (mkFileStore "/tmp") "nope").1 (by decide)

end FileStore

/-- C8.  When a per-chunk write fails during an upload session, the
session emits the coded failure notification `{code: 2}` to the client
but does not close the file's write handle, does not finalize its hash,
and does not deregister the session's per-id handler: the resulting
state differs from the prior one only by the emitted `chunkErr`
event. -/
theorem write_failure_dangles (cs : ControlState) (fileId s : String)
    (hreg : fileId ∈ cs.handlers) (hs : ¬ s = "")
    (hw : cs.store.writeStreams fileId = none) :
    handleChunk cs fileId (.pData s) =
      { cs with emitted := cs.emitted ++ [.chunkErr fileId 2] } ∧
    (handleChunk cs fileId (.pData s)).handlers = cs.handlers ∧
    (handleChunk cs fileId (.pData s)).store = cs.store := by
  have h : handleChunk cs fileId (.pData s) =
      { cs with emitted := cs.emitted ++ [.chunkErr fileId 2] } := by
    unfold handleChunk
    rw [if_pos hreg]
    have hcd : chunkData (.pData s) = some s := by
      simp [chunkData, isEmptyObject, hs]
    rw [hcd]
    dsimp only
    rw [FileStore.write_unknown _ _ _ _ hw]
  exact ⟨h, by rw [h], by rw [h]⟩

/-- Witness for C8: `csDangling` has a registered session for `"i1"`
with no open write stream. -/
theorem write_failure_dangles_witness :
    (handleChunk csDangling "i1" (.pData "x")).handlers = csDangling.handlers :=
  (write_failure_dangles csDangling "i1" "x" (by decide) (by decide) rfl).2.1

namespace FileStore

theorem inv_of_fields (st st' : FileStore)
    (hids : st'.fileIds = st.fileIds)
    (hn : st'.fileNames = st.fileNames)
    (hb : st'.fileIdsByName = st.fileIdsByName)
    (h : Inv st) : Inv st' := by
  unfold Inv at h ⊢
  rw [hids, hn, hb]
  exact h

theorem inv_close (st : FileStore) (id : String) (h : Inv st) : Inv (close st id) :=
  inv_of_fields st _ (close_fileIds st id) (close_fileNames st id)
    (close_fileIdsByName st id) h

theorem inv_foldl_close (l : List String) :
    ∀ st : FileStore, Inv st → Inv (l.foldl close st) := by
  induction l with
  | nil => intro st h; exact h
  | cons a t ih => intro st h; exact ih _ (inv_close st a h)

theorem inv_closeAll (st : FileStore) (h : Inv st) : Inv (closeAll st) :=
  inv_foldl_close st.fileIds st h

theorem inv_create (st : FileStore) (fs : FS) (newId fileName : String)
    (hfresh : newId ∉ st.fileIds) (h : Inv st) :
    Inv (createNewEmptyFile st fs newId fileName).1 := by
  obtain ⟨h1, h2, h3, h4⟩ := h
  cases hname : st.fileIdsByName fileName with
  | some i =>
      rw [createNewEmptyFile_reuse st fs newId fileName i hname]
      exact ⟨h1, h2, h3, h4⟩
  | none =>
      rw [createNewEmptyFile_fresh st fs newId fileName hname]
      unfold Inv
      dsimp only
      refine ⟨?_, ?_, ?_, ?_⟩
      · rw [List.nodup_append]
        exact ⟨h1, List.nodup_singleton newId,
          fun a ha hb => by rw [List.mem_singleton] at hb; subst hb; exact hfresh ha⟩
      · intro i hi
        rcases List.mem_append.mp hi with hi | hi
        · obtain ⟨n, hn⟩ := h2 i hi
          refine ⟨n, ?_⟩
          rw [fset_other]
          · exact hn
          · intro he; rw [he] at hi; exact hfresh hi
        · rw [List.mem_singleton] at hi
          rw [hi, fset_self]
          exact ⟨fileName, rfl⟩
      · intro i n hn
        by_cases hi : i = newId
        · rw [hi]
          exact List.mem_append.mpr (Or.inr (List.mem_singleton.mpr rfl))
        · rw [fset_other _ _ _ _ hi] at hn
          exact List.mem_append.mpr (Or.inl (h3 i n hn))
      · intro i n
        by_cases hi : i = newId <;> by_cases hnm : n = fileName
        · rw [hi, hnm, fset_self, fset_self]
          exact iff_of_true rfl rfl
        · rw [hi, fset_self, fset_other _ _ _ _ hnm]
          constructor
          · intro he
            injection he with he
            exact absurd he.symm hnm
          · intro he
            exact absurd (h3 newId n ((h4 newId n).mpr he)) hfresh
        · rw [hnm, fset_other _ _ _ _ hi, fset_self]
          constructor
          · intro he
            have hby := (h4 i fileName).mp he
            rw [hname] at hby
            exact Option.noConfusion hby
          · intro he
            injection he with he
            exact absurd he.symm hi
        · rw [fset_other _ _ _ _ hi, fset_other _ _ _ _ hnm]
          exact h4 i n

theorem inv_write (st st' : FileStore) (fs fs' : FS) (id data : String)
    (hr : write st fs id data = .ok (st', fs')) (h : Inv st) : Inv st' := by
  cases hw : st.writeStreams id with
  | none =>
      rw [write_unknown st fs id data hw] at hr
      exact absurd hr (by simp)
  | some p =>
      rw [write_ok st fs id data p hw] at hr
      injection hr with h1
      injection h1 with h2 _
      rw [← h2]
      exact inv_of_fields st _ rfl rfl rfl h

theorem inv_writeFile (st : FileStore) (fs : FS) (newId fileName : String)
    (input : List String) (hfresh : newId ∉ st.fileIds) (h : Inv st) :
    Inv (writeFile st fs newId fileName input).1 :=
  inv_of_fields (createNewEmptyFile st fs newId fileName).1 _ rfl rfl rfl
    (inv_create st fs newId fileName hfresh h)

theorem inv_delete (st : FileStore) (fs : FS) (id : String) (h : Inv st) :
    Inv (deleteFile st fs id).2.1 := by
  obtain ⟨h1, h2, h3, h4⟩ := h
  cases hn : st.fileNames id with
  | none =>
      unfold deleteFile
      rw [hn]
      exact ⟨h1, h2, h3, h4⟩
  | some n =>
      have e1 : (deleteFile st fs id).2.1.fileIds = st.fileIds.erase id := by
        rw [deleteFile_known st fs id n hn]
        show (close st id).fileIds.erase id = st.fileIds.erase id
        rw [close_fileIds]
      have e2 : (deleteFile st fs id).2.1.fileNames = fset st.fileNames id none := by
        rw [deleteFile_known st fs id n hn]
        show fset (close st id).fileNames id none = fset st.fileNames id none
        rw [close_fileNames]
      have e3 : (deleteFile st fs id).2.1.fileIdsByName
          = fset st.fileIdsByName n none := by
        rw [deleteFile_known st fs id n hn]
        show fset (close st id).fileIdsByName n none = fset st.fileIdsByName n none
        rw [close_fileIdsByName]
      refine ⟨?_, ?_, ?_, ?_⟩
      · rw [e1]
        exact h1.erase id
      · intro i hi
        rw [e1] at hi
        have hine : i ≠ id := ((List.Nodup.mem_erase_iff h1).mp hi).1
        obtain ⟨m, hm⟩ := h2 i (List.mem_of_mem_erase hi)
        refine ⟨m, ?_⟩
        rw [e2, fset_other _ _ _ _ hine]
        exact hm
      · intro i m hm
        rw [e2] at hm
        by_cases hi : i = id
        · rw [hi, fset_self] at hm
          exact Option.noConfusion hm
        · rw [fset_other _ _ _ _ hi] at hm
          rw [e1]
          exact (List.Nodup.mem_erase_iff h1).mpr ⟨hi, h3 i m hm⟩
      · intro i m
        rw [e2, e3]
        by_cases hi : i = id <;> by_cases hm : m = n
        · rw [hi, hm, fset_self, fset_self]
          exact iff_of_false (fun he => Option.noConfusion he)
            (fun he => Option.noConfusion he)
        · rw [hi, fset_self, fset_other _ _ _ _ hm]
          constructor
          · intro he
            exact Option.noConfusion he
          · intro he
            have hid := (h4 id m).mpr he
            rw [hn] at hid
            injection hid with hid
            exact absurd hid.symm hm
        · rw [hm, fset_other _ _ _ _ hi, fset_self]
          constructor
          · intro he
            have hby := (h4 i n).mp he
            have hbid := (h4 id n).mp hn
            rw [hbid] at hby
            injection hby with hby
            exact absurd hby.symm hi
          · intro he
            exact Option.noConfusion he
        · rw [fset_other _ _ _ _ hi, fset_other _ _ _ _ hm]
          exact h4 i m

theorem getOrCreate_fields (st : FileStore) (id p : String) (st' : FileStore)
    (hr : getOrCreateReadStream st id = .ok (p, st')) :
    st'.fileIds = st.fileIds ∧ st'.fileNames = st.fileNames ∧
    st'.fileIdsByName = st.fileIdsByName := by
  unfold getOrCreateReadStream at hr
  split at hr
  · injection hr with h1
    injection h1 with _ h2
    rw [← h2]
    exact ⟨rfl, rfl, rfl⟩
  · split at hr
    · exact absurd hr (by simp)
    · injection hr with h1
      injection h1 with _ h2
      rw [← h2]
      exact ⟨rfl, rfl, rfl⟩

theorem inv_updateHash (st st' : FileStore) (fs : FS) (id d : String)
    (hr : updateHash st fs id = .ok (d, st')) (h : Inv st) : Inv st' := by
  unfold updateHash at hr
  split at hr
  · split at hr
    · exact absurd hr (by simp)
    · next p stg heq =>
        split at hr
        · exact absurd hr (by simp)
        · injection hr with h1
          injection h1 with _ h2
          rw [← h2]
          obtain ⟨f1, f2, f3⟩ := getOrCreate_fields st id p stg heq
          exact inv_of_fields st _ f1 f2 f3 h
  · exact absurd hr (by simp)

/-- C7.  Every registry operation — `createOrReuse` (with a fresh UUID),
`write`, `writeFile`, `close`, `closeAll`, `delete` and `updateHash` —
preserves the invariant that the name→id and id→name maps are mutual
inverses over live records (plus the representation facts that the id
set is duplicate-free and each live id carries exactly one name). -/
theorem registry_invariant_preserved (st : FileStore) (hInv : Inv st) :
    (∀ (fs : FS) (newId fileName : String), newId ∉ st.fileIds →
      Inv (createNewEmptyFile st fs newId fileName).1) ∧
    (∀ (fs fs' : FS) (st' : FileStore) (id data : String),
      write st fs id data = .ok (st', fs') → Inv st') ∧
    (∀ (fs : FS) (newId fileName : String) (input : List String),
      newId ∉ st.fileIds → Inv (writeFile st fs newId fileName input).1) ∧
    (∀ id, Inv (close st id)) ∧
    Inv (closeAll st) ∧
    (∀ (fs : FS) (id : String), Inv (deleteFile st fs id).2.1) ∧
    (∀ (fs : FS) (id d : String) (st' : FileStore),
      updateHash st fs id = .ok (d, st') → Inv st') :=
  ⟨fun fs newId fileName hf => inv_create st fs newId fileName hf hInv,
   fun fs fs' st' id data hr => inv_write st st' fs fs' id data hr hInv,
   fun fs newId fileName input hf => inv_writeFile st fs newId fileName input hf hInv,
   fun id => inv_close st id hInv,
   inv_closeAll st hInv,
   fun fs id => inv_delete st fs id hInv,
   fun fs id d st' hr => inv_updateHash st st' fs id d hr hInv⟩

theorem stReg_inv : Inv stReg := by
  refine ⟨by decide, ?_, ?_, ?_⟩
  · intro i hi
    have hi1 : i = "i1" := by simpa [stReg] using hi
    subst hi1
    exact ⟨"a", rfl⟩
  · intro i n hn
    by_cases hi : i = "i1"
    · subst hi; simp [stReg]
    · simp [stReg, fset, hi] at hn
  · intro i n
    constructor
    · intro hn
      by_cases hi : i = "i1"
      · subst hi
        have hna : n = "a" := by simpa [stReg, fset] using hn.symm
        subst hna
        rfl
      · simp [stReg, fset, hi] at hn
    · intro hb
      by_cases hn' : n = "a"
      · subst hn'
        have hii : i = "i1" := by simpa [stReg, fset] using hb.symm
        subst hii
        rfl
      · simp [stReg, fset, hn'] at hb

/-- Witness for C7: the invariantly coherent store `stReg` stays
duplicate-free after a `close`. -/
theorem registry_invariant_preserved_witness :
    (close stReg "i1").fileIds.Nodup :=
  ((registry_invariant_preserved stReg stReg_inv).2.2.2.1 "i1").1

end FileStore
